import Mathlib

/-!
Shallow embedding of the session document index synchronizer of
src/main.py: the tracked file set, the Segment Loader state, the
reconcile loops (file upload and removal), the dirty-flag driven
rebuild of the vector index and agent, the parse-error handler, and
the clear-history handling.

The script's session state (st.session_state) becomes an explicit
SessionState record; the upload loop (main.py lines 143-159), the
removal loop (lines 161-177) and the rebuild block (lines 180-220)
become functions on it.  A raised Python exception aborts the script
run with the state as mutated so far; this is modelled by returning
the partial state in the error branch of an Except.
-/

/-- An uploaded file as the UI reports it: a name (the staging path is
the temp dir joined with the name, so the name is the identity the
loader is keyed by) and the loader's parse outcome for its bytes.
Modelled from the spec for the parse outcome: the Segment Loader
(utils/langchain_loaders.DocumentLoader, not under src/) turns the
staged bytes into text, failing with LoadError on unsupported or
corrupt content; `text = none` models a file whose add fails. -/
structure UFile where
  name : String
  text : Option String
deriving DecidableEq

/-- Modelled from the spec: the Segment Loader
(utils/langchain_loaders.DocumentLoader, not under src/) keeps a
mapping of source path to text segments supporting incremental add
and remove of a single source; `size` is its document count, used by
the rebuild condition in main.py line 182. -/
structure DocumentLoader where
  docs : List (String × String)
deriving DecidableEq

/-- Modelled from the spec: a successful loader add stores the parsed
text under the staged path (main.py line 156 calls it only after the
bytes were written). -/
def DocumentLoader.load (l : DocumentLoader) (path : String) (text : String) :
    DocumentLoader :=
  ⟨l.docs ++ [(path, text)]⟩

/-- Modelled from the spec: loader remove drops every stored document
under the given path and is a no-op on an unknown path. -/
def DocumentLoader.remove (l : DocumentLoader) (path : String) : DocumentLoader :=
  ⟨l.docs.filter (fun p => !(p.1 == path))⟩

/-- Document count of the loader (main.py line 182 consults it). -/
def DocumentLoader.size (l : DocumentLoader) : Nat :=
  l.docs.length

/-- A chunk produced by the splitting step, tagged with the identity
of its source document. -/
structure Chunk where
  docId : String
  text : List Char
deriving DecidableEq

/-- Modelled from the spec: the Chunker
(langchain RecursiveCharacterTextSplitter, not part of this
repository) splits one text into bounded-size chunks with overlap,
keeping the final chunk shorter than the maximum; empty text yields
no chunks.  The degenerate configuration overlap >= size is guarded
to keep the function total.  The fuel argument makes the recursion
structural; every step drops at least one character, so a fuel equal
to the text length always suffices. -/
def chunkCharsFuel (size overlap : Nat) : Nat → List Char → List (List Char)
  | 0, cs => if cs.length = 0 then [] else [cs]
  | fuel + 1, cs =>
    if cs.length = 0 then []
    else if cs.length ≤ size then [cs]
    else if size ≤ overlap then [cs]
    else cs.take size :: chunkCharsFuel size overlap fuel (cs.drop (size - overlap))

/-- Split one text into chunks of at most `size` characters with
`overlap` characters shared between neighbors. -/
def chunkChars (size overlap : Nat) (cs : List Char) : List (List Char) :=
  chunkCharsFuel size overlap cs.length cs

/-- The splitting step of the rebuild block (main.py line 187):
split every stored document, tagging chunks with the source path,
preserving document order and in-document order. -/
def splitDocuments (size overlap : Nat) (docs : List (String × String)) :
    List Chunk :=
  (docs.map (fun d => (chunkChars size overlap d.2.toList).map (fun c => Chunk.mk d.1 c))).flatten

/-- An embedding vector. -/
abbrev Vec := List Int

/-- Failure modes of the vector index build. -/
inductive BuildError where
  | emptyInput
  | embeddingError
deriving DecidableEq

/-- Embed every chunk in order, counting the embedding calls issued;
stops at the first failure.  The embedding capability is a parameter,
as the spec treats it as an external collaborator. -/
def embedAll (emb : List Char → Except Unit Vec) :
    List Chunk → Except BuildError (List Vec) × Nat
  | [] => (.ok [], 0)
  | c :: rest =>
    match emb c.text with
    | .error _ => (.error .embeddingError, 1)
    | .ok v =>
      match embedAll emb rest with
      | (.ok vs, n) => (.ok (v :: vs), n + 1)
      | (.error e, n) => (.error e, n + 1)

/-- A vector index: an immutable snapshot of the chunk set it was
built from together with their embeddings. -/
structure VectorIndex where
  chunks : List Chunk
  vecs : List Vec
deriving DecidableEq

/-- Modelled from the spec: the Embedding Index Builder
(FAISS.from_documents in main.py line 190; FAISS itself is not part
of this repository) requires a non-empty chunk sequence and fails
explicitly if the embedding capability errors for any chunk; the
build is all-or-nothing.  The second component counts embedding
calls issued. -/
def buildIndex (emb : List Char → Except Unit Vec) (chunks : List Chunk) :
    Except BuildError VectorIndex × Nat :=
  if chunks.isEmpty then (.error .emptyInput, 0)
  else
    match embedAll emb chunks with
    | (.ok vs, n) => (.ok ⟨chunks, vs⟩, n)
    | (.error e, n) => (.error e, n)

/-- The retrieval tool wrapping one vector index
(create_retriever_tool in main.py lines 196-200). -/
structure RetrievalTool where
  name : String
  description : String
  index : VectorIndex
deriving DecidableEq

/-- The parse-error handler every agent is constructed with:
lambda error: str(error)[:50] (main.py lines 134, 209, 217). -/
def strTrunc50 (e : String) : String :=
  String.mk (e.data.take 50)

/-- The published agent: its tool list and its parse-error handler.
The LLM binding and the shared memory are opaque collaborators and
carry no state the claims depend on. -/
structure Agent where
  tools : List RetrievalTool
  handleParsingErrors : String → String

/-- Agent construction as done at all three call sites
(AgentExecutor.from_agent_and_tools with
ConversationalAgent.from_llm_and_tools, main.py lines 130-135,
203-210 and 213-218): the given tool list, and the truncating
parse-error handler. -/
def composeAgent (tools : List RetrievalTool) : Agent :=
  ⟨tools, strTrunc50⟩

/-- Modelled from the spec: when a later invoke of the agent raises a
structured-output parse error, the AgentExecutor (third-party; src
only configures handle_parsing_errors) recovers locally by returning
the handler's string as the turn's output. -/
def Agent.invokeOnParseError (a : Agent) (errMsg : String) : String :=
  a.handleParsingErrors errMsg

/-- A chat transcript entry of st.session_state.messages. -/
structure ChatMsg where
  role : String
  content : String
deriving DecidableEq

/-- The session state of the script: the tracked file list
(st.session_state.files), the loader, the dirty flag
(st.session_state.on_change), the displayed transcript
(st.session_state.messages), the StreamlitChatMessageHistory store
backing the agent's memory, the staged temp-file names, and the
published agent (st.session_state.agent). -/
structure SessionState where
  files : List UFile
  loader : DocumentLoader
  on_change : Bool
  messages : List ChatMsg
  chatHistory : List ChatMsg
  staged : List String
  agent : Agent

/-- The state after the session-state initialization block
(main.py lines 121-135) in a fresh session. -/
def initState : SessionState :=
  { files := []
    loader := ⟨[]⟩
    on_change := false
    messages := []
    chatHistory := []
    staged := []
    agent := composeAgent [] }

/-- Writing the staged bytes (main.py lines 152-153): creates the
temp file or overwrites an existing one of the same name. -/
def stageWrite (staged : List String) (name : String) : List String :=
  if name ∈ staged then staged else staged ++ [name]

/-- The file upload loop (main.py lines 143-159): for each reported
file not yet tracked, append it to the tracked list, stage its bytes,
invoke the loader's add, and set the dirty flag.  A loader failure
raises, aborting the script run with the state as mutated so far
(the file was already appended); this is the error branch. -/
def addLoop : List UFile → SessionState → Except SessionState SessionState
  | [], st => .ok st
  | f :: rest, st =>
    if f ∈ st.files then addLoop rest st
    else
      let st1 := { st with files := st.files ++ [f], staged := stageWrite st.staged f.name }
      match f.text with
      | none => .error st1
      | some t =>
        addLoop rest { st1 with loader := st1.loader.load f.name t, on_change := true }

/-- The file removal loop (main.py lines 161-177), with Python's list
iteration semantics made explicit: the iterator walks indices of the
list while the body removes elements from that same list, so after a
removal the element shifted into the removed position is skipped.
For each visited tracked file absent from the reported set: loader
remove, unstage, remove from the tracked list, set the dirty flag.
The fuel argument bounds the iteration count; the initial list length
is always sufficient since the index grows every step and the list
never grows. -/
def removeLoopFuel (uploaded : List UFile) :
    Nat → Nat → SessionState → SessionState
  | 0, _, st => st
  | fuel + 1, i, st =>
    if h : i < st.files.length then
      let f := st.files[i]
      if f ∈ uploaded then removeLoopFuel uploaded fuel (i + 1) st
      else
        removeLoopFuel uploaded fuel (i + 1)
          { st with
            files := st.files.erase f
            loader := st.loader.remove f.name
            staged := st.staged.erase f.name
            on_change := true }
    else st

/-- The file removal loop run from the start of the tracked list. -/
def removeLoop (uploaded : List UFile) (st : SessionState) : SessionState :=
  removeLoopFuel uploaded st.files.length 0 st

/-- One reconcile cycle: the upload loop followed by the removal loop
(main.py lines 143-177).  A loader failure in the upload loop aborts
the cycle before the removal loop runs. -/
def reconcile (uploaded : List UFile) (st : SessionState) :
    Except SessionState SessionState :=
  match addLoop uploaded st with
  | .error st1 => .error st1
  | .ok st1 => .ok (removeLoop uploaded st1)

/-- Result of the rebuild block: the resulting state (or the state at
the point a raised error aborted the run) and the number of embedding
calls issued. -/
structure RebuildResult where
  result : Except SessionState SessionState
  embedCalls : Nat

/-- The rebuild block (main.py lines 180-220): if the dirty flag is
set and the loader holds at least one document, split all stored
documents with chunk size 1500 and overlap 200, build the vector
index, wrap it as the retrieval tool described by the reported file
names, and publish an agent carrying exactly that tool; if the loader
is empty, publish a toolless agent; either way clear the dirty flag.
If the flag is clear the whole block is skipped.  A failed index
build raises before any assignment, aborting the run with the state
unchanged. -/
def rebuildIfDirty (emb : List Char → Except Unit Vec) (uploaded : List UFile)
    (st : SessionState) : RebuildResult :=
  if st.on_change then
    if st.loader.size > 0 then
      let documents := splitDocuments 1500 200 st.loader.docs
      match buildIndex emb documents with
      | (.error _, n) => ⟨.error st, n⟩
      | (.ok vector, n) =>
        let fnameStr :=
          String.intercalate ", " (uploaded.map (fun f => ((f.name.splitOn ".").headD "")))
        let tool : RetrievalTool :=
          ⟨"vector-tool", "Useful for searching information about " ++ fnameStr, vector⟩
        ⟨.ok { st with agent := composeAgent [tool], on_change := false }, n⟩
    else
      ⟨.ok { st with agent := composeAgent [], on_change := false }, 0⟩
  else ⟨.ok st, 0⟩

/-- One full script run over the file-handling section: reconcile
then rebuild. -/
def cycle (emb : List Char → Except Unit Vec) (uploaded : List UFile)
    (st : SessionState) : Except SessionState SessionState :=
  match reconcile uploaded st with
  | .error st1 => .error st1
  | .ok st1 => (rebuildIfDirty emb uploaded st1).result

/-- The clear-history handling (main.py lines 117-118): the button
resets only st.session_state.messages. -/
def clearHistoryStep (clicked : Bool) (st : SessionState) : SessionState :=
  if clicked then { st with messages := [] } else st

/-- The state carried by either branch of an aborted-or-completed
script run. -/
def resultState : Except SessionState SessionState → SessionState
  | .error st => st
  | .ok st => st

/-- Whether a script run aborted with a raised exception. -/
def isErr : Except SessionState SessionState → Bool
  | .error _ => true
  | .ok _ => false

/-!
Invariants tying the tracked file list, the loader state and the
published agent together, and the lemmas showing the reconcile loops
and the rebuild block preserve them.
-/

/-- The loader document a successfully added tracked file contributes:
its staged path paired with its parsed text. -/
def repDoc (f : UFile) : Option (String × String) :=
  f.text.map (fun t => (f.name, t))

/-- Consistency of tracked files and loader state: the loader stores
exactly the tracked files' documents in tracking order, tracked names
are distinct, and every tracked file was parsed successfully. -/
def SyncInv (st : SessionState) : Prop :=
  st.loader.docs = st.files.filterMap repDoc ∧
  (st.files.map UFile.name).Nodup ∧
  ∀ f ∈ st.files, f.text ≠ none

/-- Consistency of the published agent with the tracked set: the tool
list is empty exactly when no file is tracked, and a published tool's
index was built from the chunks of the loader's current documents. -/
def AgentOK (st : SessionState) : Prop :=
  (st.agent.tools = [] ↔ st.files = []) ∧
  (∀ t, st.agent.tools = [t] →
    t.index.chunks = splitDocuments 1500 200 st.loader.docs) ∧
  (st.files ≠ [] → ∃ t, st.agent.tools = [t])

/-- The full state invariant holding between interaction cycles. -/
def StateOK (st : SessionState) : Prop :=
  SyncInv st ∧ st.on_change = false ∧ AgentOK st ∧
  st.agent.handleParsingErrors = strTrunc50

theorem map_fst_filterMap_repDoc :
    ∀ fs : List UFile, (∀ g ∈ fs, g.text ≠ none) →
    (fs.filterMap repDoc).map Prod.fst = fs.map UFile.name := by
  intro fs
  induction fs with
  | nil => intro _; rfl
  | cons g fs ih =>
    intro hs
    obtain ⟨tg, hg⟩ := Option.ne_none_iff_exists.mp (hs g (List.mem_cons_self g fs))
    simp only [List.filterMap_cons, repDoc, ← hg, Option.map_some', List.map_cons]
    rw [ih (fun x hx => hs x (List.mem_cons_of_mem g hx))]

theorem eq_nil_of_filterMap_repDoc :
    ∀ fs : List UFile, (∀ g ∈ fs, g.text ≠ none) →
    fs.filterMap repDoc = [] → fs = [] := by
  intro fs
  cases fs with
  | nil => intro _ _; rfl
  | cons g fs =>
    intro hs h
    obtain ⟨tg, hg⟩ := Option.ne_none_iff_exists.mp (hs g (List.mem_cons_self g fs))
    simp only [List.filterMap_cons, repDoc, ← hg, Option.map_some'] at h
    exact (List.cons_ne_nil _ _ h).elim

theorem filterMap_repDoc_erase :
    ∀ (fs : List UFile) (f : UFile), (∀ g ∈ fs, g.text ≠ none) →
    (fs.map UFile.name).Nodup → f ∈ fs →
    (fs.filterMap repDoc).filter (fun p => !(p.1 == f.name)) =
      (fs.erase f).filterMap repDoc := by
  intro fs
  induction fs with
  | nil => intro f _ _ hf; cases hf
  | cons g fs ih =>
    intro f hs hnd hf
    obtain ⟨tg, hg⟩ := Option.ne_none_iff_exists.mp (hs g (List.mem_cons_self g fs))
    have hs' : ∀ x ∈ fs, x.text ≠ none := fun x hx => hs x (List.mem_cons_of_mem g hx)
    have hnd' : (fs.map UFile.name).Nodup := (List.nodup_cons.mp hnd).2
    have hgn : g.name ∉ fs.map UFile.name := (List.nodup_cons.mp hnd).1
    by_cases hfg : f = g
    · subst hfg
      rw [List.erase_cons_head]
      rw [List.filterMap_cons,
        show repDoc f = some (f.name, tg) from by simp [repDoc, ← hg],
        List.filter_cons, if_neg (by simp)]
      apply List.filter_eq_self.mpr
      intro p hp
      have hp1 : p.1 ∈ (fs.filterMap repDoc).map Prod.fst := List.mem_map.mpr ⟨p, hp, rfl⟩
      rw [map_fst_filterMap_repDoc fs hs'] at hp1
      have hne : p.1 ≠ f.name := fun he => hgn (he ▸ hp1)
      simp [hne]
    · have hffs : f ∈ fs := by
        rcases List.mem_cons.mp hf with h | h
        · exact absurd h hfg
        · exact h
      have hgf : g.name ≠ f.name := by
        intro he
        exact hgn (he ▸ List.mem_map.mpr ⟨f, hffs, rfl⟩)
      rw [List.erase_cons_tail (by simp; exact fun h => hfg h.symm)]
      simp only [List.filterMap_cons, repDoc, ← hg, Option.map_some', List.filter_cons]
      rw [if_pos (by simp [hgf]), ih f hs' hnd' hffs]

theorem addLoop_mono :
    ∀ (uploaded : List UFile) (st st' : SessionState),
    addLoop uploaded st = .ok st' → st.on_change = true →
    st'.on_change = true := by
  intro uploaded
  induction uploaded with
  | nil =>
    intro st st' h hc
    simp only [addLoop] at h
    cases h
    exact hc
  | cons f rest ih =>
    intro st st' h hc
    simp only [addLoop] at h
    by_cases hf : f ∈ st.files
    · rw [if_pos hf] at h
      exact ih st st' h hc
    · rw [if_neg hf] at h
      cases ht : f.text with
      | none => rw [ht] at h; cases h
      | some t => rw [ht] at h; exact ih _ st' h rfl

theorem addLoop_clean :
    ∀ (uploaded : List UFile) (st st' : SessionState),
    addLoop uploaded st = .ok st' → st'.on_change = false →
    st' = st := by
  intro uploaded
  induction uploaded with
  | nil =>
    intro st st' h _
    simp only [addLoop] at h
    cases h
    rfl
  | cons f rest ih =>
    intro st st' h hc
    simp only [addLoop] at h
    by_cases hf : f ∈ st.files
    · rw [if_pos hf] at h
      exact ih st st' h hc
    · rw [if_neg hf] at h
      cases ht : f.text with
      | none => rw [ht] at h; cases h
      | some t =>
        rw [ht] at h
        have := addLoop_mono rest _ st' h rfl
        rw [hc] at this
        cases this

theorem addLoop_inv :
    ∀ (uploaded : List UFile) (st st' : SessionState),
    addLoop uploaded st = .ok st' →
    SyncInv st →
    (uploaded.map UFile.name).Nodup →
    (∀ f ∈ uploaded, ∀ g ∈ st.files, f.name = g.name → f = g) →
    SyncInv st' := by
  intro uploaded
  induction uploaded with
  | nil =>
    intro st st' h hinv _ _
    simp only [addLoop] at h
    cases h
    exact hinv
  | cons f rest ih =>
    intro st st' h hinv hnd hH
    obtain ⟨hdocs, hnames, hsome⟩ := hinv
    simp only [List.map_cons, List.nodup_cons] at hnd
    simp only [addLoop] at h
    by_cases hf : f ∈ st.files
    · rw [if_pos hf] at h
      exact ih st st' h ⟨hdocs, hnames, hsome⟩ hnd.2
        (fun x hx => hH x (List.mem_cons_of_mem f hx))
    · rw [if_neg hf] at h
      cases ht : f.text with
      | none => rw [ht] at h; cases h
      | some t =>
        rw [ht] at h
        have hfn : f.name ∉ st.files.map UFile.name := by
          intro hmem
          obtain ⟨g, hg, hgn⟩ := List.mem_map.mp hmem
          exact hf (hH f (List.mem_cons_self f rest) g hg hgn.symm ▸ hg)
        refine ih _ st' h ?_ hnd.2 ?_
        · refine ⟨?_, ?_, ?_⟩
          · show st.loader.docs ++ [(f.name, t)] = (st.files ++ [f]).filterMap repDoc
            rw [List.filterMap_append, ← hdocs]
            simp [repDoc, ht]
          · show ((st.files ++ [f]).map UFile.name).Nodup
            rw [List.map_append, List.nodup_append]
            exact ⟨hnames, List.nodup_singleton _,
              fun a ha hb => hfn ((List.mem_singleton.mp hb) ▸ ha)⟩
          · intro g hg
            rcases List.mem_append.mp hg with hgl | hgr
            · exact hsome g hgl
            · rw [List.mem_singleton.mp hgr, ht]; exact fun hc => Option.noConfusion hc
        · intro x hx g hg hxg
          rcases List.mem_append.mp hg with hgl | hgr
          · exact hH x (List.mem_cons_of_mem f hx) g hgl hxg
          · exfalso
            rw [List.mem_singleton.mp hgr] at hxg
            exact hnd.1 (hxg ▸ List.mem_map.mpr ⟨x, hx, rfl⟩)

theorem syncInv_remove_step (st : SessionState) (f : UFile)
    (hinv : SyncInv st) (hf : f ∈ st.files) :
    SyncInv { st with
      files := st.files.erase f
      loader := st.loader.remove f.name
      staged := st.staged.erase f.name
      on_change := true } := by
  obtain ⟨hdocs, hnames, hsome⟩ := hinv
  refine ⟨?_, ?_, ?_⟩
  · show (st.loader.docs.filter (fun p => !(p.1 == f.name))) =
      (st.files.erase f).filterMap repDoc
    rw [hdocs]
    exact filterMap_repDoc_erase st.files f hsome hnames hf
  · show ((st.files.erase f).map UFile.name).Nodup
    exact ((List.erase_sublist f st.files).map UFile.name).nodup hnames
  · intro g hg
    exact hsome g (List.mem_of_mem_erase hg)

theorem removeLoopFuel_inv :
    ∀ (uploaded : List UFile) (fuel i : Nat) (st : SessionState),
    SyncInv st → SyncInv (removeLoopFuel uploaded fuel i st) := by
  intro uploaded fuel
  induction fuel with
  | zero => intro i st hinv; exact hinv
  | succ fuel ih =>
    intro i st hinv
    simp only [removeLoopFuel]
    by_cases h : i < st.files.length
    · rw [dif_pos h]
      by_cases hmem : st.files[i] ∈ uploaded
      · rw [if_pos hmem]; exact ih (i + 1) st hinv
      · rw [if_neg hmem]
        exact ih (i + 1) _
          (syncInv_remove_step st _ hinv (List.getElem_mem h))
    · rw [dif_neg h]; exact hinv

theorem removeLoopFuel_mono :
    ∀ (uploaded : List UFile) (fuel i : Nat) (st : SessionState),
    st.on_change = true →
    (removeLoopFuel uploaded fuel i st).on_change = true := by
  intro uploaded fuel
  induction fuel with
  | zero => intro i st hc; exact hc
  | succ fuel ih =>
    intro i st hc
    simp only [removeLoopFuel]
    by_cases h : i < st.files.length
    · rw [dif_pos h]
      by_cases hmem : st.files[i] ∈ uploaded
      · rw [if_pos hmem]; exact ih (i + 1) st hc
      · rw [if_neg hmem]; exact ih (i + 1) _ rfl
    · rw [dif_neg h]; exact hc

theorem removeLoopFuel_clean :
    ∀ (uploaded : List UFile) (fuel i : Nat) (st : SessionState),
    (removeLoopFuel uploaded fuel i st).on_change = false →
    removeLoopFuel uploaded fuel i st = st := by
  intro uploaded fuel
  induction fuel with
  | zero => intro i st _; rfl
  | succ fuel ih =>
    intro i st hc
    simp only [removeLoopFuel] at hc ⊢
    by_cases h : i < st.files.length
    · rw [dif_pos h] at hc ⊢
      by_cases hmem : st.files[i] ∈ uploaded
      · rw [if_pos hmem] at hc ⊢; exact ih (i + 1) st hc
      · rw [if_neg hmem] at hc ⊢
        exfalso
        have hm := removeLoopFuel_mono uploaded fuel (i + 1)
          { st with
            files := st.files.erase st.files[i]
            loader := st.loader.remove st.files[i].name
            staged := st.staged.erase st.files[i].name
            on_change := true } rfl
        rw [hm] at hc
        cases hc
    · rw [dif_neg h]

theorem reconcile_inv :
    ∀ (uploaded : List UFile) (st st' : SessionState),
    reconcile uploaded st = .ok st' →
    SyncInv st →
    (uploaded.map UFile.name).Nodup →
    (∀ f ∈ uploaded, ∀ g ∈ st.files, f.name = g.name → f = g) →
    SyncInv st' := by
  intro uploaded st st' h hinv hnd hH
  simp only [reconcile] at h
  cases ha : addLoop uploaded st with
  | error st1 => rw [ha] at h; cases h
  | ok st1 =>
    rw [ha] at h
    cases h
    exact removeLoopFuel_inv uploaded st1.files.length 0 st1
      (addLoop_inv uploaded st st1 ha hinv hnd hH)

theorem reconcile_clean :
    ∀ (uploaded : List UFile) (st st' : SessionState),
    reconcile uploaded st = .ok st' → st'.on_change = false →
    st' = st := by
  intro uploaded st st' h hc
  simp only [reconcile] at h
  cases ha : addLoop uploaded st with
  | error st1 => rw [ha] at h; cases h
  | ok st1 =>
    rw [ha] at h
    cases h
    have h1 := removeLoopFuel_clean uploaded st1.files.length 0 st1 hc
    rw [removeLoop] at hc ⊢
    rw [h1] at hc ⊢
    exact addLoop_clean uploaded st st1 ha hc

theorem buildIndex_ok :
    ∀ (emb : List Char → Except Unit Vec) (cs : List Chunk) (v : VectorIndex) (n : Nat),
    buildIndex emb cs = (.ok v, n) → v.chunks = cs ∧ cs ≠ [] := by
  intro emb cs v n h
  simp only [buildIndex] at h
  by_cases he : cs.isEmpty
  · rw [if_pos he] at h
    cases h
  · rw [if_neg he] at h
    cases hall : embedAll emb cs with
    | mk r m =>
      cases r with
      | error e => rw [hall] at h; cases h
      | ok vs =>
        rw [hall] at h
        cases h
        exact ⟨rfl, fun hnil => he (by simp [hnil])⟩

theorem rebuild_error :
    ∀ (emb : List Char → Except Unit Vec) (uploaded : List UFile) (st st' : SessionState),
    (rebuildIfDirty emb uploaded st).result = .error st' →
    st' = st ∧ st.on_change = true := by
  intro emb uploaded st st' h
  simp only [rebuildIfDirty] at h
  cases hd : st.on_change with
  | false => rw [hd] at h; simp at h
  | true =>
    rw [hd] at h
    simp only [if_true] at h
    by_cases hsz : st.loader.size > 0
    · rw [if_pos hsz] at h
      cases hb : buildIndex emb (splitDocuments 1500 200 st.loader.docs) with
      | mk r n =>
        cases r with
        | error e =>
          rw [hb] at h
          simp only at h
          cases h
          exact ⟨rfl, rfl⟩
        | ok v =>
          rw [hb] at h
          simp at h
    · rw [if_neg hsz] at h
      simp at h

theorem rebuild_clean :
    ∀ (emb : List Char → Except Unit Vec) (uploaded : List UFile) (st : SessionState),
    st.on_change = false →
    rebuildIfDirty emb uploaded st = ⟨.ok st, 0⟩ := by
  intro emb uploaded st hd
  simp only [rebuildIfDirty, hd]
  rfl

theorem rebuild_ok_cases :
    ∀ (emb : List Char → Except Unit Vec) (uploaded : List UFile) (st st' : SessionState),
    (rebuildIfDirty emb uploaded st).result = .ok st' →
    (st.on_change = false ∧ st' = st) ∨
    (st.on_change = true ∧ st.loader.size > 0 ∧
      ∃ v n, buildIndex emb (splitDocuments 1500 200 st.loader.docs) = (.ok v, n) ∧
        st' = { st with
          agent := composeAgent
            [⟨"vector-tool",
              "Useful for searching information about " ++
                String.intercalate ", "
                  (uploaded.map (fun f => ((f.name.splitOn ".").headD ""))), v⟩]
          on_change := false }) ∨
    (st.on_change = true ∧ ¬ st.loader.size > 0 ∧
      st' = { st with agent := composeAgent [], on_change := false }) := by
  intro emb uploaded st st' h
  simp only [rebuildIfDirty] at h
  cases hd : st.on_change with
  | false =>
    rw [hd] at h
    rw [if_neg (by simp)] at h
    cases h
    exact Or.inl ⟨rfl, rfl⟩
  | true =>
    rw [hd] at h
    simp only [if_true] at h
    by_cases hsz : st.loader.size > 0
    · rw [if_pos hsz] at h
      cases hb : buildIndex emb (splitDocuments 1500 200 st.loader.docs) with
      | mk r n =>
        cases r with
        | error e => rw [hb] at h; simp at h
        | ok v =>
          rw [hb] at h
          simp only at h
          cases h
          exact Or.inr (Or.inl ⟨rfl, hsz, v, n, rfl, rfl⟩)
    · rw [if_neg hsz] at h
      simp only at h
      cases h
      exact Or.inr (Or.inr ⟨rfl, hsz, rfl⟩)

/-- States reachable from a fresh session through successful
interaction cycles (reconcile followed by the rebuild block), where
each cycle's reported upload set has pairwise distinct file names and
a reported name equal to a tracked name denotes the same file. -/
inductive SyncReachable : SessionState → Prop where
  | init : SyncReachable initState
  | step (emb : List Char → Except Unit Vec) (uploaded : List UFile)
      (st st' : SessionState) :
      SyncReachable st →
      (uploaded.map UFile.name).Nodup →
      (∀ f ∈ uploaded, ∀ g ∈ st.files, f.name = g.name → f = g) →
      cycle emb uploaded st = .ok st' →
      SyncReachable st'

theorem stateOK_init : StateOK initState := by
  refine ⟨⟨rfl, List.nodup_nil, ?_⟩, rfl, ⟨?_, ?_, ?_⟩, rfl⟩
  · intro f hf; cases hf
  · exact ⟨fun _ => rfl, fun _ => rfl⟩
  · intro t ht; cases ht
  · intro hne; exact absurd rfl hne

theorem files_ne_nil_of_size_pos (st : SessionState) (hinv : SyncInv st)
    (hsz : st.loader.size > 0) : st.files ≠ [] := by
  intro hnil
  obtain ⟨hdocs, _, _⟩ := hinv
  rw [hnil] at hdocs
  simp only [List.filterMap_nil] at hdocs
  rw [DocumentLoader.size, hdocs] at hsz
  simp at hsz

theorem files_eq_nil_of_size_zero (st : SessionState) (hinv : SyncInv st)
    (hsz : ¬ st.loader.size > 0) : st.files = [] := by
  obtain ⟨hdocs, _, hsome⟩ := hinv
  apply eq_nil_of_filterMap_repDoc st.files hsome
  rw [← hdocs]
  have h0 : st.loader.docs.length = 0 := by
    simp only [DocumentLoader.size] at hsz
    omega
  exact List.eq_nil_of_length_eq_zero h0

theorem stateOK_cycle :
    ∀ (emb : List Char → Except Unit Vec) (uploaded : List UFile)
      (st st' : SessionState),
    StateOK st →
    (uploaded.map UFile.name).Nodup →
    (∀ f ∈ uploaded, ∀ g ∈ st.files, f.name = g.name → f = g) →
    cycle emb uploaded st = .ok st' →
    StateOK st' := by
  intro emb uploaded st st' hok hnd hH h
  obtain ⟨hinv, hclean, hagent, hhandler⟩ := hok
  simp only [cycle] at h
  cases hr : reconcile uploaded st with
  | error st1 => rw [hr] at h; cases h
  | ok st1 =>
    rw [hr] at h
    have hinv1 : SyncInv st1 := reconcile_inv uploaded st st1 hr hinv hnd hH
    rcases rebuild_ok_cases emb uploaded st1 st' h with
      ⟨hd1, hst⟩ | ⟨hd1, hsz, v, n, hb, hst⟩ | ⟨hd1, hsz, hst⟩
    · rw [hst]
      have h1 : st1 = st := reconcile_clean uploaded st st1 hr hd1
      rw [h1]
      exact ⟨hinv, hclean, hagent, hhandler⟩
    · rw [hst]
      obtain ⟨hchunks, hne⟩ := buildIndex_ok emb _ v n hb
      have hfne : st1.files ≠ [] := files_ne_nil_of_size_pos st1 hinv1 hsz
      refine ⟨hinv1, rfl, ⟨?_, ?_, ?_⟩, rfl⟩
      · exact ⟨fun hc => absurd hc (by simp [composeAgent]), fun hc => absurd hc hfne⟩
      · intro t ht
        have ht2 : (⟨"vector-tool",
            "Useful for searching information about " ++
              String.intercalate ", "
                (uploaded.map (fun f => ((f.name.splitOn ".").headD ""))), v⟩ :
              RetrievalTool) = t := by
          simpa [composeAgent] using ht
        rw [← ht2]
        exact hchunks
      · exact fun _ => ⟨_, rfl⟩
    · rw [hst]
      have hfnil : st1.files = [] := files_eq_nil_of_size_zero st1 hinv1 hsz
      refine ⟨hinv1, rfl, ⟨?_, ?_, ?_⟩, rfl⟩
      · exact ⟨fun _ => hfnil, fun _ => rfl⟩
      · intro t ht
        exact absurd ht (by simp [composeAgent])
      · intro hne; exact absurd hfnil hne

theorem stateOK_of_reachable :
    ∀ st : SessionState, SyncReachable st → StateOK st := by
  intro st h
  induction h with
  | init => exact stateOK_init
  | step emb uploaded st st' _ hnd hH hc ih =>
    exact stateOK_cycle emb uploaded st st' ih hnd hH hc

/-!
Concrete fixtures used by the counterexamples and witnesses.
-/

/-- A file the loader parses successfully. -/
def fA : UFile := ⟨"a.txt", some "alpha"⟩

/-- A second file the loader parses successfully. -/
def fB : UFile := ⟨"b.txt", some "beta"⟩

/-- A file the loader fails to parse (corrupt content). -/
def badF : UFile := ⟨"bad.pdf", none⟩

/-- A file whose content is empty, so the Chunker yields no chunks. -/
def fE : UFile := ⟨"e.txt", some ""⟩

/-- A clean session tracking a.txt and b.txt. -/
def stAB : SessionState :=
  { files := [fA, fB]
    loader := ⟨[("a.txt", "alpha"), ("b.txt", "beta")]⟩
    on_change := false
    messages := []
    chatHistory := []
    staged := ["a.txt", "b.txt"]
    agent := composeAgent [] }

/-- A dirty session tracking only the empty-content file. -/
def stE : SessionState :=
  { files := [fE]
    loader := ⟨[("e.txt", "")]⟩
    on_change := true
    messages := []
    chatHistory := []
    staged := ["e.txt"]
    agent := composeAgent [] }

/-- A dirty session tracking only b.txt. -/
def stB : SessionState :=
  { files := [fB]
    loader := ⟨[("b.txt", "beta")]⟩
    on_change := true
    messages := []
    chatHistory := []
    staged := ["b.txt"]
    agent := composeAgent [] }

/-- An embedding capability that always succeeds. -/
def embOkConst : List Char → Except Unit Vec := fun _ => .ok [0]

/-- An embedding capability that always fails (embedding-service error). -/
def embFail : List Char → Except Unit Vec := fun _ => .error ()

/-- The state after a first successful cycle uploading a.txt. -/
def c4s1 : SessionState := resultState (cycle embOkConst [fA] initState)

/-- The state after the aborted second run, in which the add of the
corrupt bad.pdf failed but left it tracked (session state persists
across the aborted run). -/
def c4s2 : SessionState := resultState (reconcile [fA, badF] c4s1)

/-- The state after the third run's reconcile, with a.txt removed:
bad.pdf is tracked, the loader is empty, the dirty flag is set. -/
def c4s3 : SessionState := resultState (reconcile [badF] c4s2)

/-- The state after the third run's full cycle, whose dirty rebuild
succeeds. -/
def c4s4 : SessionState := resultState (cycle embOkConst [badF] c4s2)

/-!
The claims.
-/

/-- C1, as stated, is false at a concrete input: reconciling a fresh
session with a single corrupt file aborts in the loader add, yet the
file IS a member of the tracked file set afterwards (the append at
main.py line 146 precedes the load at line 156), while the loader is
unchanged. -/
theorem c1_counterexample :
    isErr (reconcile [badF] initState) = true ∧
    badF ∈ (resultState (reconcile [badF] initState)).files ∧
    (resultState (reconcile [badF] initState)).loader = initState.loader := by
  exact ⟨rfl, by decide, by decide⟩

/-- C1 (amended): for every file whose Segment Loader add raises
during the add path of a reconcile cycle, the file IS a member of the
tracked file set after the failed add (the code appends before
loading), and the loader state is unchanged by the failed add. -/
theorem c1_add_failure_keeps_file :
    ∀ (st : SessionState) (f : UFile) (rest : List UFile),
    f ∉ st.files → f.text = none →
    ∃ st', addLoop (f :: rest) st = .error st' ∧ f ∈ st'.files ∧
      st'.loader = st.loader := by
  intro st f rest hf ht
  refine ⟨{ st with files := st.files ++ [f], staged := stageWrite st.staged f.name },
    ?_, ?_, rfl⟩
  · simp only [addLoop, if_neg hf, ht]
  · simp

/-- Witness for c1_add_failure_keeps_file at a concrete input. -/
theorem c1_add_failure_keeps_file_witness :
    ∃ st', addLoop [badF] initState = .error st' ∧ badF ∈ st'.files ∧
      st'.loader = initState.loader :=
  c1_add_failure_keeps_file initState badF [] (by decide) rfl

/-- C2 fails on the code: with a.txt and b.txt tracked and an empty
reported upload set, one reconcile cycle removes a.txt but skips
b.txt, because the removal loop mutates the list it iterates over;
the tracked set afterwards is not the (empty) reported set. -/
theorem c2_removal_skips_second :
    isErr (reconcile [] stAB) = false ∧
    (resultState (reconcile [] stAB)).files = [fB] ∧
    (resultState (reconcile [] stAB)).loader.docs = [("b.txt", "beta")] := by
  exact ⟨rfl, by decide, by decide⟩

/-- C3, as stated, is false at a concrete input: a dirty session
tracking one empty-content document has chunk count zero but loader
document count one, so the rebuild takes the index-construction
branch and aborts (empty index build) instead of composing a
toolless agent. -/
theorem c3_counterexample :
    stE.on_change = true ∧
    stE.loader.size > 0 ∧
    splitDocuments 1500 200 stE.loader.docs = [] ∧
    isErr (rebuildIfDirty embOkConst [fE] stE).result = true := by
  exact ⟨rfl, by decide, by decide, by decide⟩

/-- C3 (amended): the rebuild branch condition is the loader's
document count, not the chunk count: during a dirty rebuild the agent
is composed with an empty tool list exactly when the loader holds no
documents, and when the document count is positive the index
pipeline runs regardless of chunk count, failing (not yielding a
toolless agent) when the documents chunk to nothing. -/
theorem c3_branch_on_loader_size :
    ∀ (emb : List Char → Except Unit Vec) (uploaded : List UFile) (st : SessionState),
    st.on_change = true →
    (¬ st.loader.size > 0 →
      (rebuildIfDirty emb uploaded st).result =
        .ok { st with agent := composeAgent [], on_change := false }) ∧
    (st.loader.size > 0 → splitDocuments 1500 200 st.loader.docs = [] →
      (rebuildIfDirty emb uploaded st).result = .error st) := by
  intro emb uploaded st hd
  constructor
  · intro hsz
    simp only [rebuildIfDirty, hd, if_true, if_neg hsz]
  · intro hsz hnil
    simp only [rebuildIfDirty, hd, if_true, if_pos hsz, hnil]
    rfl

/-- Witness for c3_branch_on_loader_size at a concrete input. -/
theorem c3_branch_on_loader_size_witness :
    stE.on_change = true ∧ stE.loader.size > 0 ∧
    splitDocuments 1500 200 stE.loader.docs = [] ∧
    (rebuildIfDirty embOkConst [fE] stE).result = .error stE :=
  ⟨rfl, by decide, by decide,
    (c3_branch_on_loader_size embOkConst [fE] stE rfl).2 (by decide) (by decide)⟩

/-- C4, as stated, is false at a concrete input: a session uploads
a.txt (successful cycle), then reports a.txt together with the
corrupt bad.pdf (the add of bad.pdf fails at the loader, but the file
stays tracked and the session persists across the aborted run), then
reports bad.pdf alone.  That third cycle succeeds end to end: the
removal loop drops a.txt, leaving the loader empty while bad.pdf is
still tracked, and the successful dirty rebuild publishes a toolless
agent although the tracked file set is non-empty. -/
theorem c4_counterexample :
    isErr (cycle embOkConst [fA] initState) = false ∧
    isErr (reconcile [fA, badF] c4s1) = true ∧
    c4s3.on_change = true ∧
    (rebuildIfDirty embOkConst [badF] c4s3).result = .ok c4s4 ∧
    c4s4.agent.tools = [] ∧
    c4s4.files = [badF] := by
  exact ⟨rfl, rfl, by decide, rfl, by decide, by decide⟩

/-- C4 (amended): after a successful rebuild of a dirty synchronizer
the published agent's tool list is empty iff the loader's stored
document set is empty, and otherwise it contains exactly one
retrieval tool whose index was built from the chunks of all
loader-stored documents and no others.  The loader's keys coincide
with the tracked file set only while every add has succeeded; after a
failed add they diverge (the failed file stays tracked but unloaded),
and the tracked set can be non-empty while the rebuild publishes a
toolless agent. -/
theorem c4_rebuild_matches_loader :
    ∀ (emb : List Char → Except Unit Vec) (uploaded : List UFile)
      (st st' : SessionState),
    st.on_change = true →
    (rebuildIfDirty emb uploaded st).result = .ok st' →
    (st'.agent.tools = [] ↔ st'.loader.docs = []) ∧
    (st'.loader.docs ≠ [] → ∃ t : RetrievalTool, st'.agent.tools = [t] ∧
      t.index.chunks = splitDocuments 1500 200 st'.loader.docs) := by
  intro emb uploaded st st' hd h
  rcases rebuild_ok_cases emb uploaded st st' h with
    ⟨hd1, _⟩ | ⟨_, hsz, v, n, hb, hst⟩ | ⟨_, hsz, hst⟩
  · rw [hd] at hd1
    cases hd1
  · rw [hst]
    obtain ⟨hchunks, _⟩ := buildIndex_ok emb _ v n hb
    have hne : st.loader.docs ≠ [] := by
      intro hnil
      simp only [DocumentLoader.size, hnil, List.length_nil] at hsz
      omega
    refine ⟨⟨fun hc => absurd hc (by simp [composeAgent]), fun hc => absurd hc hne⟩, ?_⟩
    intro _
    exact ⟨_, rfl, hchunks⟩
  · rw [hst]
    have hnil : st.loader.docs = [] := by
      simp only [DocumentLoader.size] at hsz
      exact List.eq_nil_of_length_eq_zero (by omega)
    refine ⟨⟨fun _ => hnil, fun _ => rfl⟩, ?_⟩
    intro hne
    exact absurd hnil hne

/-- Witness for c4_rebuild_matches_loader at a dirty session tracking
b.txt with a succeeding embedding capability. -/
theorem c4_rebuild_matches_loader_witness :
    stB.on_change = true ∧
    (((resultState (rebuildIfDirty embOkConst [fB] stB).result).agent.tools = [] ↔
      (resultState (rebuildIfDirty embOkConst [fB] stB).result).loader.docs = []) ∧
     ((resultState (rebuildIfDirty embOkConst [fB] stB).result).loader.docs ≠ [] →
      ∃ t : RetrievalTool,
        (resultState (rebuildIfDirty embOkConst [fB] stB).result).agent.tools = [t] ∧
        t.index.chunks = splitDocuments 1500 200
          (resultState (rebuildIfDirty embOkConst [fB] stB).result).loader.docs)) :=
  ⟨rfl, c4_rebuild_matches_loader embOkConst [fB] stB
    (resultState (rebuildIfDirty embOkConst [fB] stB).result) rfl rfl⟩

/-- C5: a failed rebuild (for example an embedding-service error
while building the vector index) leaves the previously published
agent current and unchanged and the dirty flag still true, so a retry
is possible; no partially built agent is published. -/
theorem c5_failed_rebuild_preserves_agent :
    ∀ (emb : List Char → Except Unit Vec) (uploaded : List UFile)
      (st st' : SessionState),
    (rebuildIfDirty emb uploaded st).result = .error st' →
    st'.agent = st.agent ∧ st'.on_change = true ∧ st' = st := by
  intro emb uploaded st st' h
  obtain ⟨he, hd⟩ := rebuild_error emb uploaded st st' h
  refine ⟨by rw [he], ?_, he⟩
  rw [he]
  exact hd

/-- Witness for c5_failed_rebuild_preserves_agent at a concrete
failing embedding capability. -/
theorem c5_failed_rebuild_preserves_agent_witness :
    (rebuildIfDirty embFail [fB] stB).result = .error stB ∧
    stB.agent = stB.agent ∧ stB.on_change = true ∧ stB = stB :=
  ⟨rfl, c5_failed_rebuild_preserves_agent embFail [fB] stB stB rfl⟩

/-- C6 fails on the code: from a clean session tracking a.txt and
b.txt, a full cycle with an empty reported upload set removes only
a.txt (leaving b.txt tracked and the dirty flag cleared by the
rebuild); running the reconcile cycle a second time with the same
(empty) upload set then mutates again, removing b.txt and flipping
the dirty flag from false to true. -/
theorem c6_second_reconcile_mutates :
    (resultState (cycle embOkConst [] stAB)).files = [fB] ∧
    (resultState (cycle embOkConst [] stAB)).on_change = false ∧
    (resultState (reconcile [] (resultState (cycle embOkConst [] stAB)))).files = [] ∧
    (resultState (reconcile [] (resultState (cycle embOkConst [] stAB)))).on_change = true := by
  exact ⟨by decide, by decide, by decide, by decide⟩

/-- C7: when the dirty flag is false the rebuild block is a complete
no-op: the state (published agent, tracked set, dirty flag included)
is returned unchanged and zero embedding calls are issued; the block
contains no LLM invocation site at all, so none can be issued. -/
theorem c7_clean_rebuild_noop :
    ∀ (emb : List Char → Except Unit Vec) (uploaded : List UFile) (st : SessionState),
    st.on_change = false →
    (rebuildIfDirty emb uploaded st).result = .ok st ∧
    (rebuildIfDirty emb uploaded st).embedCalls = 0 := by
  intro emb uploaded st hd
  rw [rebuild_clean emb uploaded st hd]
  exact ⟨rfl, rfl⟩

/-- Witness for c7_clean_rebuild_noop: even a failing embedding
capability is never called on a clean session. -/
theorem c7_clean_rebuild_noop_witness :
    initState.on_change = false ∧
    (rebuildIfDirty embFail [] initState).result = .ok initState ∧
    (rebuildIfDirty embFail [] initState).embedCalls = 0 :=
  ⟨rfl, c7_clean_rebuild_noop embFail [] initState rfl⟩

/-- C8: every agent the synchronizer publishes (initial, with-tool
and toolless variants alike) recovers a structured-output parse error
raised during a later invoke by converting it to a string truncated
to at most 50 characters and returning that string as the turn's
output. -/
theorem c8_parse_error_truncated :
    ∀ st : SessionState, SyncReachable st → ∀ e : String,
    st.agent.invokeOnParseError e = String.mk (e.data.take 50) ∧
    (st.agent.invokeOnParseError e).length ≤ 50 := by
  intro st h e
  obtain ⟨_, _, _, hhandler⟩ := stateOK_of_reachable st h
  have h1 : st.agent.invokeOnParseError e = String.mk (e.data.take 50) := by
    show st.agent.handleParsingErrors e = _
    rw [hhandler]
    rfl
  refine ⟨h1, ?_⟩
  rw [h1]
  show (e.data.take 50).length ≤ 50
  rw [List.length_take]
  exact Nat.min_le_left 50 e.data.length

/-- Witness for c8_parse_error_truncated at the initial agent and a
concrete 59-character error message. -/
theorem c8_parse_error_truncated_witness :
    initState.agent.invokeOnParseError
        "Could not parse LLM output: the quick brown fox jumps over" =
      String.mk
        ("Could not parse LLM output: the quick brown fox jumps over".data.take 50) ∧
    (initState.agent.invokeOnParseError
        "Could not parse LLM output: the quick brown fox jumps over").length ≤ 50 :=
  c8_parse_error_truncated initState SyncReachable.init
    "Could not parse LLM output: the quick brown fox jumps over"

/-- C9: the splitting step is deterministic: identical document
sequences under identical configuration produce identical chunk
sequences (same boundaries, same order, same source-document tags). -/
theorem c9_chunker_deterministic :
    ∀ (size1 overlap1 size2 overlap2 : Nat) (docs1 docs2 : List (String × String)),
    size1 = size2 → overlap1 = overlap2 → docs1 = docs2 →
    splitDocuments size1 overlap1 docs1 = splitDocuments size2 overlap2 docs2 := by
  intro s1 o1 s2 o2 d1 d2 hs ho hd
  rw [hs, ho, hd]

/-- Witness for c9_chunker_deterministic at the configured chunk size
and overlap on a concrete document list. -/
theorem c9_chunker_deterministic_witness :
    (1500 : Nat) = 1500 ∧ (200 : Nat) = 200 ∧
    splitDocuments 1500 200 [("a.txt", "alpha")] =
      splitDocuments 1500 200 [("a.txt", "alpha")] :=
  ⟨rfl, rfl,
    c9_chunker_deterministic 1500 200 1500 200 [("a.txt", "alpha")]
      [("a.txt", "alpha")] rfl rfl rfl⟩

/-- C10: pressing Clear History resets only the displayed transcript;
the chat-message history backing the agent's memory, the tracked file
set, the loader state, the dirty flag and the published agent are all
unchanged. -/
theorem c10_clear_history_frame :
    ∀ st : SessionState,
    (clearHistoryStep true st).messages = [] ∧
    (clearHistoryStep true st).chatHistory = st.chatHistory ∧
    (clearHistoryStep true st).files = st.files ∧
    (clearHistoryStep true st).loader = st.loader ∧
    (clearHistoryStep true st).on_change = st.on_change ∧
    (clearHistoryStep true st).agent = st.agent := by
  intro st
  simp [clearHistoryStep]
